import Mathlib

/-!
Verification of the temporal feature derivation and inference-schema
alignment subsystem of the box-office-prediction repository.

The Lean definitions below are shallow embeddings of:
* `scripts/03_feature_engineering.py` — the row parsers `get_genre_names`,
  `get_season`, `get_director`, `get_top_actor`, and the rolling-average
  loop of `main` that derives `director_score` / `actor_score` from two
  pairs of accumulator dictionaries (`director_rev`/`director_count`,
  `actor_rev`/`actor_count`);
* `app.py` — the inference-time vector builder (`input_data` construction
  under the predict button).

Conventions: Python `float` revenue values are modelled as `ℚ`;
a Python value that is either a string or `None` is modelled as
`Option String` (`none` = Python `None`); a pandas CSV cell holding a
JSON-encoded field is modelled by `PyField`, whose three constructors
distinguish a missing cell (`pd.isna`), a cell whose JSON parse (or
subsequent field access) raises — swallowed by the bare `except:` — and a
successfully parsed value.
-/

/-- A CSV cell as seen by the parsers of `03_feature_engineering.py`:
missing (`pd.isna` is true), unparseable (the `try` body raises), or
parsed into a value of type `α`. -/
inductive PyField (α : Type) where
  | nan : PyField α
  | malformed : PyField α
  | parsed : α → PyField α
deriving DecidableEq

/-- One element of the `crew` JSON list: a Python dict read with
`member.get('job')` and `member.get('name')`, each of which is `None`
when the key is absent. -/
structure CrewMember where
  job : Option String
  name : Option String
deriving DecidableEq

/-- One element of the `cast` JSON list, read with `cast[0].get('name')`. -/
structure CastMember where
  name : Option String
deriving DecidableEq

/-- One element of the `genres` JSON list, read with `g['name']`
(a missing key raises `KeyError`, caught by the bare `except:`). -/
structure GenreEntry where
  name : Option String
deriving DecidableEq

/-- `get_genre_names` of `03_feature_engineering.py`: `[]` on a missing or
unparseable cell, otherwise the list of `name` fields; a single missing
`name` key raises inside the comprehension, so the whole row falls back
to `[]`. -/
def get_genre_names : PyField (List GenreEntry) → List String
  | .nan => []
  | .malformed => []
  | .parsed gs =>
      if gs.all (fun g => g.name.isSome) then gs.map (fun g => g.name.getD "") else []

/-- `get_season` of `03_feature_engineering.py`.  The month cell is either
missing (`pd.isna`) or convertible by `int(month)`; the integer result is
bucketed by the if/elif chain. -/
def get_season : Option Int → String
  | none => "Unknown"
  | some month =>
      if month = 5 ∨ month = 6 ∨ month = 7 then "Summer_Blockbuster"
      else if month = 11 ∨ month = 12 then "Holiday_Season"
      else if month = 1 ∨ month = 2 ∨ month = 8 ∨ month = 9 then "Dump_Months"
      else "Spring_Fall"

/-- `get_director` of `03_feature_engineering.py`: scans the crew list for
the first member whose `job` is `"Director"` and returns that member's
`name` field (which is Python `None` when the key is absent, hence the
`Option String` result); `"Unknown"` when the cell is missing,
unparseable, or has no director entry. -/
def get_director : PyField (List CrewMember) → Option String
  | .nan => some "Unknown"
  | .malformed => some "Unknown"
  | .parsed crew =>
      match crew.find? (fun m => m.job == some "Director") with
      | some m => m.name
      | none => some "Unknown"

/-- `get_top_actor` of `03_feature_engineering.py`: the `name` field of
the first-billed cast member; `"Unknown"` when the cell is missing,
unparseable, or the cast list is empty. -/
def get_top_actor : PyField (List CastMember) → Option String
  | .nan => some "Unknown"
  | .malformed => some "Unknown"
  | .parsed [] => some "Unknown"
  | .parsed (c :: _) => c.name

/-!
## The rolling-average loop of `03_feature_engineering.py` (lines 94–126)

The loop keeps two pairs of Python dicts — `director_rev`/`director_count`
and `actor_rev`/`actor_count` — and two growing score lists.  The director
branch and the actor branch are textually identical up to the choice of
dict pair and of the `director` vs `top_actor` column, so they are
embedded as one generic step (`stepEntity`) run over the stream of
`(name, revenue_adj)` pairs of the respective column.  A Python dict is
modelled as `String → Option _` (`none` = key absent).
-/

/-- Python dict assignment `m[k] = v`. -/
def updateMap {α : Type} (m : String → Option α) (k : String) (v : α) : String → Option α :=
  fun x => if x = k then some v else m x

/-- One `rev`/`count` dict pair of the loop (e.g. `director_rev` and
`director_count`). -/
structure Ledger where
  rev : String → Option ℚ
  count : String → Option ℕ

/-- The dicts start empty (`director_rev, director_count = {}, {}`). -/
def Ledger.empty : Ledger := ⟨fun _ => none, fun _ => none⟩

/-- One loop iteration for one entity column, returning the appended score
and the updated dict pair.  Mirrors

```
if d != "Unknown" and d in director_rev:
    dir_scores.append(director_rev[d] / director_count[d])
    director_rev[d] += rev
    director_count[d] += 1
else:
    dir_scores.append(0)
    if d != "Unknown":
        director_rev[d] = rev
        director_count[d] = 1
```

`Option.getD 0` totalizes the dict reads; in the division branch the key
is present by the branch condition, and the count is shown positive by
`C8_division_safe` below. -/
def stepEntity (L : Ledger) (name : String) (revenue : ℚ) : ℚ × Ledger :=
  if name ≠ "Unknown" ∧ (L.rev name).isSome then
    ( (L.rev name).getD 0 / (((L.count name).getD 0 : ℕ) : ℚ)
    , { rev := updateMap L.rev name ((L.rev name).getD 0 + revenue)
      , count := updateMap L.count name ((L.count name).getD 0 + 1) } )
  else
    (0, if name = "Unknown" then L
        else { rev := updateMap L.rev name revenue
             , count := updateMap L.count name 1 })

/-- Run the loop over a `(name, revenue_adj)` stream; returns the score
list (in row order) and the final dict pair. -/
def runEntity : Ledger → List (String × ℚ) → List ℚ × Ledger
  | L, [] => ([], L)
  | L, (n, r) :: rest =>
      let p := stepEntity L n r
      let q := runEntity p.2 rest
      (p.1 :: q.1, q.2)

/-- One row of the feature-engineering dataframe at the point where the
loop runs (after `df.sort_values('release_date')`): the loop reads
`row['director']`, `row['top_actor']` and `row['revenue_adj']`; the
release date orders the rows.  Dates are modelled as integers. -/
structure Row where
  release_date : Int
  director : String
  top_actor : String
  revenue_adj : ℚ
deriving DecidableEq

/-- The `(director, revenue_adj)` stream of the corpus. -/
def dirStream (rows : List Row) : List (String × ℚ) :=
  rows.map fun r => (r.director, r.revenue_adj)

/-- The `(top_actor, revenue_adj)` stream of the corpus. -/
def actorStream (rows : List Row) : List (String × ℚ) :=
  rows.map fun r => (r.top_actor, r.revenue_adj)

/-- `dir_scores` accumulated by the loop, for a corpus already sorted by
release date (the loop runs after `df.sort_values('release_date')`). -/
def dir_scores (rows : List Row) : List ℚ :=
  (runEntity Ledger.empty (dirStream rows)).1

/-- `actor_scores` accumulated by the loop. -/
def actor_scores (rows : List Row) : List ℚ :=
  (runEntity Ledger.empty (actorStream rows)).1

/-- The `director_score` column: `pd.Series(dir_scores) / 1_000_000`. -/
def director_score (rows : List Row) : List ℚ :=
  (dir_scores rows).map (· / 1000000)

/-- The `actor_score` column: `pd.Series(actor_scores) / 1_000_000`. -/
def actor_score (rows : List Row) : List ℚ :=
  (actor_scores rows).map (· / 1000000)

/-- The final director dict pair after the pass. -/
def finalDirLedger (rows : List Row) : Ledger :=
  (runEntity Ledger.empty (dirStream rows)).2

/-- The final actor dict pair after the pass. -/
def finalActorLedger (rows : List Row) : Ledger :=
  (runEntity Ledger.empty (actorStream rows)).2

/-!
## The inference-time vector builder of `app.py` (lines 51–74)

`input_data` is a Python dict built from the persisted `feature_cols`
list; `pd.DataFrame([input_data])` turns it into a single row whose
columns follow the dict's insertion order.  The dict is modelled as an
association list in insertion order: assignment to an existing key
updates it in place, assignment to a fresh key appends it.
-/

/-- The live inputs collected by the Streamlit widgets. -/
structure LiveInput where
  budget : ℚ
  runtime : ℚ
  is_franchise : Bool
  director_score : ℚ
  actor_score : ℚ
  season : String
  primary_genre : String
deriving DecidableEq

/-- Python dict assignment `m[k] = v` on an insertion-ordered dict:
update the existing entry in place, else append. -/
def dictSet : List (String × ℚ) → String → ℚ → List (String × ℚ)
  | [], k, v => [(k, v)]
  | (k', v') :: m, k, v =>
      if k' = k then (k, v) :: m else (k', v') :: dictSet m k v

/-- Python `k in m`. -/
def dictMem (m : List (String × ℚ)) (k : String) : Bool :=
  m.any fun p => p.1 == k

/-- Python `m[k]`, as an `Option`. -/
def dictLookup (m : List (String × ℚ)) (k : String) : Option ℚ :=
  (m.find? fun p => p.1 == k).map (·.2)

/-- `input_data = {col: 0 for col in feature_cols}`. -/
def initDict (feature_cols : List String) : List (String × ℚ) :=
  feature_cols.foldl (fun m col => dictSet m col 0) []

/-- Step 2 of the `input_data` construction: the five unconditional
numeric assignments (`budget * 1_000_000`, `runtime`, the 0/1 franchise
flag, `director_score`, `actor_score`), in program order. -/
def numericDict (feature_cols : List String) (inp : LiveInput) : List (String × ℚ) :=
  dictSet (dictSet (dictSet (dictSet (dictSet (initDict feature_cols)
    "budget_adj" (inp.budget * 1000000))
    "runtime" inp.runtime)
    "is_franchise" (if inp.is_franchise then 1 else 0))
    "director_score" inp.director_score)
    "actor_score" inp.actor_score

/-- Step 3 of the `input_data` construction: `if col in input_data:
input_data[col] = 1`. -/
def setIndicator (m : List (String × ℚ)) (col : String) : List (String × ℚ) :=
  if dictMem m col then dictSet m col 1 else m

/-- The `input_data` construction of `app.py`: zero-initialize from the
schema, overwrite the five numeric fields, then set the season indicator
and then the genre indicator, each only when the constructed column name
is already a key. -/
def build (feature_cols : List String) (inp : LiveInput) : List (String × ℚ) :=
  setIndicator (setIndicator (numericDict feature_cols inp) ("season_" ++ inp.season))
    ("genre_" ++ inp.primary_genre)

/-- The value row of `pd.DataFrame([input_data])`, in column order. -/
def buildVector (feature_cols : List String) (inp : LiveInput) : List ℚ :=
  (build feature_cols inp).map (·.2)

/-- The column names of `pd.DataFrame([input_data])`, in order. -/
def buildCols (feature_cols : List String) (inp : LiveInput) : List String :=
  (build feature_cols inp).map (·.1)

/-- The occurrences of entity `n` in a `(name, revenue)` stream. -/
def occs (n : String) (l : List (String × ℚ)) : List (String × ℚ) :=
  l.filter fun p => p.1 == n

/-- Total revenue of the occurrences of `n` in the stream. -/
def revSum (n : String) (l : List (String × ℚ)) : ℚ :=
  ((occs n l).map (·.2)).sum

/-- Number of occurrences of `n` in the stream. -/
def occCount (n : String) (l : List (String × ℚ)) : ℕ :=
  (occs n l).length

/-- The per-iteration safety condition of the loop: whenever the division
branch is taken (`d != "Unknown" and d in director_rev`), the count dict
holds a strictly positive count for `d` at the point where
`director_rev[d] / director_count[d]` is evaluated. -/
def divSafe : Ledger → List (String × ℚ) → Prop
  | _, [] => True
  | L, (n, r) :: rest =>
      ((n ≠ "Unknown" ∧ (L.rev n).isSome) → ∃ c, L.count n = some c ∧ 0 < c) ∧
      divSafe (stepEntity L n r).2 rest

/-- Invariant: every entity present in the `rev` dict has a strictly
positive entry in the `count` dict. -/
def LedgerInv (L : Ledger) : Prop :=
  ∀ n, (L.rev n).isSome → ∃ c, L.count n = some c ∧ 0 < c

/-- M1: an earlier movie by director "A". -/
def c2M1 : Row := ⟨1, "A", "X", 100⟩

/-- M3: a movie by "A" released on the same date as M2 but positioned
before it in the sorted order. -/
def c2M3 : Row := ⟨2, "A", "Y", 200⟩

/-- M2: the later movie by "A" whose score the claim constrains. -/
def c2M2 : Row := ⟨2, "A", "Z", 300⟩

/-- The counterexample corpus, sorted by release date. -/
def c2Corpus : List Row := [c2M1, c2M3, c2M2]

/-- The key sequence of an insertion-ordered dict. -/
def dictKeys (m : List (String × ℚ)) : List String := m.map (·.1)


/-!
## Concrete corpora and inputs used by the concrete-scenario claims
-/

/-- The schema of the concrete inference scenario (§8 of the spec). -/
def c1Schema : List String :=
  ["budget_adj", "runtime", "is_franchise", "director_score", "actor_score",
   "season_Holiday_Season", "genre_Action"]

/-- The live input of the concrete inference scenario.  `"Holiday Season"`
is the label offered by the app's season selectbox (`app.py` line 34). -/
def c1Input : LiveInput :=
  { budget := 50, runtime := 110, is_franchise := true
  , director_score := 25/2, actor_score := 40
  , season := "Holiday Season", primary_genre := "Action" }

/-- Three movies by director "A" with revenues 100, 200, 300 million,
released in order, plus a fourth by a new director "B". -/
def c3Corpus : List Row :=
  [ ⟨1, "A", "P", 100000000⟩
  , ⟨2, "A", "Q", 200000000⟩
  , ⟨3, "A", "R", 300000000⟩ ]

/-- `c3Corpus` extended by a fourth movie by the never-before-seen
director "B". -/
def c3Corpus4 : List Row :=
  c3Corpus ++ [⟨4, "B", "S", 400000000⟩]

/-- C3: the concrete scenario of §8 — director scores (in millions)
are 0, 100, 150 for the three movies of director "A", and the fourth
movie by new director "B" scores 0. -/
theorem C3_concrete_director_scores :
    director_score c3Corpus = [0, 100, 150] ∧
    director_score c3Corpus4 = [0, 100, 150, 0] := by
  constructor
  · simp +decide [director_score, dir_scores, dirStream, c3Corpus4, c3Corpus,
      runEntity, stepEntity, Ledger.empty, updateMap]
    norm_num
  · simp +decide [director_score, dir_scores, dirStream, c3Corpus4, c3Corpus,
      runEntity, stepEntity, Ledger.empty, updateMap]
    norm_num

/-- C1: evaluation of the builder at the concrete scenario of §8.  The
season selectbox label is `"Holiday Season"` (with a space), so
`season_col = "season_Holiday Season"`, which is not the schema's
engineered column name `"season_Holiday_Season"` (underscore, produced by
`get_season` + the `season_` dummy prefix); the membership guard therefore
silently skips the assignment and the season slot stays 0 — the vector is
`[50000000, 110, 1, 12.5, 40, 0, 1]`, not the specified
`[50000000, 110, 1, 12.5, 40, 1, 1]`.  An unlisted season label likewise
leaves the slot at 0, so the two vectors coincide. -/
theorem C1_season_indicator_eval :
    buildVector c1Schema c1Input = [50000000, 110, 1, 25/2, 40, 0, 1] ∧
    buildVector c1Schema { c1Input with season := "Spring Fall" } =
      buildVector c1Schema c1Input := by
  constructor
  · simp +decide [buildVector, build, setIndicator, numericDict, initDict, dictSet, dictMem,
      c1Schema, c1Input, List.foldl]
    norm_num
  · simp +decide [buildVector, build, setIndicator, numericDict, initDict, dictSet, dictMem,
      c1Schema, c1Input, List.foldl]

/-- C9 counterexample: a crew list whose first (and only) member has job
`"Director"` but no `name` key makes `get_director` return
`member.get('name')`, i.e. Python `None` — not a string, contradicting
the claim that the derived director is always a string. -/
theorem C9_director_none_counterexample :
    get_director (.parsed [⟨some "Director", none⟩]) = none := rfl

/-- Auxiliary: `List.find?` returns the first element satisfying the
predicate: its index precedes every other satisfying index. -/
theorem find?_first {α : Type} (p : α → Bool) :
    ∀ (l : List α) (a : α), l.find? p = some a →
      ∃ i, ∃ hi : i < l.length, l.get ⟨i, hi⟩ = a ∧
        ∀ j, ∀ hj : j < i, ¬ p (l.get ⟨j, Nat.lt_trans hj hi⟩) = true
  | [], a, h => by simp [List.find?] at h
  | x :: xs, a, h => by
      by_cases hx : p x
      · rw [List.find?_cons_of_pos _ hx, Option.some.injEq] at h
        exact ⟨0, Nat.succ_pos _, by simpa using h, fun j hj => absurd hj (Nat.not_lt_zero j)⟩
      · rw [List.find?_cons_of_neg _ (by simpa using hx)] at h
        obtain ⟨i, hi, hget, hfirst⟩ := find?_first p xs a h
        refine ⟨i + 1, Nat.succ_lt_succ hi, by simpa using hget, ?_⟩
        intro j hj
        cases j with
        | zero => simpa using hx
        | succ j' => simpa using hfirst j' (Nat.lt_of_succ_lt_succ hj)

/-- C9 (amended): the derived director is `"Unknown"` or the `name` field
of the first crew member whose job is `"Director"` — a field which is
Python `None` when absent, so the result is not always a string; the
derived lead actor is `"Unknown"` or the `name` field of the first-billed
cast member; missing or unparseable crew/cast yields `"Unknown"` and an
unparseable genre list yields the empty genre list. -/
theorem C9_parser_defaults :
    (∀ c : PyField (List CrewMember),
        get_director c = some "Unknown" ∨
        ∃ crew i, ∃ hi : i < crew.length, c = .parsed crew ∧
          (crew.get ⟨i, hi⟩).job = some "Director" ∧
          (∀ j, ∀ hj : j < i, (crew.get ⟨j, Nat.lt_trans hj hi⟩).job ≠ some "Director") ∧
          get_director c = (crew.get ⟨i, hi⟩).name) ∧
    (∀ c : PyField (List CastMember),
        get_top_actor c = some "Unknown" ∨
        ∃ hd tl, c = .parsed (hd :: tl) ∧ get_top_actor c = hd.name) ∧
    get_director .nan = some "Unknown" ∧ get_director .malformed = some "Unknown" ∧
    get_top_actor .nan = some "Unknown" ∧ get_top_actor .malformed = some "Unknown" ∧
    get_genre_names .nan = [] ∧ get_genre_names .malformed = [] := by
  refine ⟨?_, ?_, rfl, rfl, rfl, rfl, rfl, rfl⟩
  · intro c
    match c with
    | .nan => exact Or.inl rfl
    | .malformed => exact Or.inl rfl
    | .parsed crew =>
        cases hfind : crew.find? (fun m => m.job == some "Director") with
        | none => exact Or.inl (by simp [get_director, hfind])
        | some m =>
            obtain ⟨i, hi, hget, hfirst⟩ := find?_first _ crew m hfind
            refine Or.inr ⟨crew, i, hi, rfl, ?_, ?_, ?_⟩
            · have := List.find?_some hfind
              rw [hget]; simpa using this
            · intro j hj h
              exact hfirst j hj (by simpa using h)
            · simp [get_director, hfind, ← hget]
  · intro c
    match c with
    | .nan => exact Or.inl rfl
    | .malformed => exact Or.inl rfl
    | .parsed [] => exact Or.inl rfl
    | .parsed (hd :: tl) => exact Or.inr ⟨hd, tl, rfl, rfl⟩

/-- C9 witness: the amended theorem applied to a missing crew cell. -/
theorem C9_parser_defaults_witness :
    get_director (.parsed [⟨some "Producer", some "P"⟩]) = some "Unknown" ∨
    ∃ crew i, ∃ hi : i < crew.length,
      (PyField.parsed [CrewMember.mk (some "Producer") (some "P")] : PyField (List CrewMember))
          = .parsed crew ∧
      (crew.get ⟨i, hi⟩).job = some "Director" ∧
      (∀ j, ∀ hj : j < i, (crew.get ⟨j, Nat.lt_trans hj hi⟩).job ≠ some "Director") ∧
      get_director (.parsed [⟨some "Producer", some "P"⟩]) = (crew.get ⟨i, hi⟩).name :=
  C9_parser_defaults.1 (.parsed [⟨some "Producer", some "P"⟩])

/-- C10: for every non-missing month (any integer, after `int(month)`),
`get_season` returns one of the four season labels; any integer outside
1–12 falls through to `"Spring_Fall"`; `"Unknown"` is returned exactly for
the missing month. -/
theorem C10_get_season_buckets :
    ∀ m : Int,
      (get_season (some m) = "Summer_Blockbuster" ∨ get_season (some m) = "Holiday_Season" ∨
        get_season (some m) = "Dump_Months" ∨ get_season (some m) = "Spring_Fall") ∧
      ((m < 1 ∨ 12 < m) → get_season (some m) = "Spring_Fall") ∧
      get_season (some m) ≠ "Unknown" ∧
      get_season none = "Unknown" := by
  intro m
  simp only [get_season]
  split_ifs with h1 h2 h3
  · exact ⟨Or.inl rfl, fun hm => absurd hm (by omega), by decide, trivial⟩
  · exact ⟨Or.inr (Or.inl rfl), fun hm => absurd hm (by omega), by decide, trivial⟩
  · exact ⟨Or.inr (Or.inr (Or.inl rfl)), fun hm => absurd hm (by omega), by decide, trivial⟩
  · exact ⟨Or.inr (Or.inr (Or.inr rfl)), fun _ => rfl, by decide, trivial⟩

/-- C10 witness: month 13 is out of 1–12 and maps to `"Spring_Fall"`. -/
theorem C10_get_season_buckets_witness :
    ((13 : Int) < 1 ∨ 12 < (13 : Int)) ∧ get_season (some 13) = "Spring_Fall" :=
  ⟨Or.inr (by norm_num), (C10_get_season_buckets 13).2.1 (Or.inr (by norm_num))⟩

/-!
## Generic lemmas about the rolling-average loop
-/


theorem occs_cons_self (n : String) (r : ℚ) (l : List (String × ℚ)) :
    occs n ((n, r) :: l) = (n, r) :: occs n l := by
  simp [occs, List.filter_cons]

theorem occs_cons_ne (n m : String) (hm : m ≠ n) (r : ℚ) (l : List (String × ℚ)) :
    occs n ((m, r) :: l) = occs n l := by
  simp [occs, List.filter_cons, hm]

theorem occs_append (n : String) (l₁ l₂ : List (String × ℚ)) :
    occs n (l₁ ++ l₂) = occs n l₁ ++ occs n l₂ := by
  simp [occs, List.filter_append]

theorem runEntity_fst_length : ∀ (l : List (String × ℚ)) (L : Ledger),
    (runEntity L l).1.length = l.length
  | [], _ => rfl
  | (n, r) :: rest, L => by
      simp only [runEntity, List.length_cons]
      rw [runEntity_fst_length rest]

theorem runEntity_append : ∀ (l₁ l₂ : List (String × ℚ)) (L : Ledger),
    runEntity L (l₁ ++ l₂) =
      ((runEntity L l₁).1 ++ (runEntity (runEntity L l₁).2 l₂).1,
        (runEntity (runEntity L l₁).2 l₂).2)
  | [], l₂, L => by simp [runEntity]
  | (n, r) :: rest, l₂, L => by
      simp only [List.cons_append, runEntity]
      rw [show rest.append l₂ = rest ++ l₂ from rfl, runEntity_append rest l₂]

theorem stepEntity_rev_ne (L : Ledger) (n : String) (r : ℚ) (m : String) (h : m ≠ n) :
    (stepEntity L n r).2.rev m = L.rev m := by
  simp only [stepEntity]
  split_ifs <;> simp [updateMap, h]

theorem stepEntity_count_ne (L : Ledger) (n : String) (r : ℚ) (m : String) (h : m ≠ n) :
    (stepEntity L n r).2.count m = L.count m := by
  simp only [stepEntity]
  split_ifs <;> simp [updateMap, h]

theorem stepEntity_unknown (L : Ledger) (n : String) (r : ℚ) :
    (stepEntity L n r).2.rev "Unknown" = L.rev "Unknown" ∧
    (stepEntity L n r).2.count "Unknown" = L.count "Unknown" := by
  by_cases hn : n = "Unknown"
  · subst hn; simp [stepEntity]
  · exact ⟨stepEntity_rev_ne L n r _ (Ne.symm hn), stepEntity_count_ne L n r _ (Ne.symm hn)⟩

/-- The `"Unknown"` sentinel never enters the accumulator dicts. -/
theorem runEntity_unknown : ∀ (l : List (String × ℚ)) (L : Ledger),
    (runEntity L l).2.rev "Unknown" = L.rev "Unknown" ∧
    (runEntity L l).2.count "Unknown" = L.count "Unknown"
  | [], _ => ⟨rfl, rfl⟩
  | (n, r) :: rest, L => by
      simp only [runEntity]
      obtain ⟨h1, h2⟩ := runEntity_unknown rest (stepEntity L n r).2
      obtain ⟨g1, g2⟩ := stepEntity_unknown L n r
      exact ⟨h1.trans g1, h2.trans g2⟩

/-- Characterization of the accumulator dicts after a run: for an entity
`n ≠ "Unknown"`, the dicts hold exactly the sum and the number of `n`'s
occurrences so far (offset by whatever the dicts held at the start). -/
theorem runEntity_ledger (n : String) (hn : n ≠ "Unknown") :
    ∀ (l : List (String × ℚ)) (L : Ledger),
      (L.rev n = none → L.count n = none →
        (runEntity L l).2.rev n = (if occCount n l = 0 then none else some (revSum n l)) ∧
        (runEntity L l).2.count n = (if occCount n l = 0 then none else some (occCount n l))) ∧
      (∀ q c, L.rev n = some q → L.count n = some c →
        (runEntity L l).2.rev n = some (q + revSum n l) ∧
        (runEntity L l).2.count n = some (c + occCount n l))
  | [], L => by
      constructor
      · intro h1 h2
        simp [runEntity, h1, h2, occCount, occs, revSum]
      · intro q c h1 h2
        simp [runEntity, h1, h2, occCount, occs, revSum]
  | (m, r) :: rest, L => by
      by_cases hm : m = n
      · subst hm
        have hocc : occCount m ((m, r) :: rest) = occCount m rest + 1 := by
          simp [occCount, occs_cons_self]
        have hrev : revSum m ((m, r) :: rest) = r + revSum m rest := by
          simp [revSum, occs_cons_self]
        constructor
        · intro h1 h2
          have hstep : stepEntity L m r =
              (0, { rev := updateMap L.rev m r, count := updateMap L.count m 1 }) := by
            simp [stepEntity, h1, hn]
          simp only [runEntity, hstep]
          have := (runEntity_ledger m hn rest
            { rev := updateMap L.rev m r, count := updateMap L.count m 1 }).2 r 1
            (by simp [updateMap]) (by simp [updateMap])
          rw [this.1, this.2, hocc, hrev]
          constructor
          · rw [if_neg (by omega)]
          · rw [if_neg (by omega)]
            congr 1
            omega
        · intro q c h1 h2
          have hstep : stepEntity L m r =
              ((L.rev m).getD 0 / (((L.count m).getD 0 : ℕ) : ℚ)
              , { rev := updateMap L.rev m ((L.rev m).getD 0 + r)
                , count := updateMap L.count m ((L.count m).getD 0 + 1) }) := by
            simp [stepEntity, h1, hn]
          simp only [runEntity, hstep]
          have := (runEntity_ledger m hn rest
            { rev := updateMap L.rev m ((L.rev m).getD 0 + r)
            , count := updateMap L.count m ((L.count m).getD 0 + 1) }).2
            ((L.rev m).getD 0 + r) ((L.count m).getD 0 + 1)
            (by simp [updateMap]) (by simp [updateMap])
          rw [this.1, this.2, hocc, hrev]
          constructor
          · simp [h1]
            ring
          · simp [h2]
            omega
      · have hocc : occCount n ((m, r) :: rest) = occCount n rest := by
          simp [occCount, occs_cons_ne n m hm]
        have hrev : revSum n ((m, r) :: rest) = revSum n rest := by
          simp [revSum, occs_cons_ne n m hm]
        have hrv := stepEntity_rev_ne L m r n (Ne.symm hm)
        have hct := stepEntity_count_ne L m r n (Ne.symm hm)
        constructor
        · intro h1 h2
          simp only [runEntity]
          have := (runEntity_ledger n hn rest (stepEntity L m r).2).1
            (hrv.trans h1) (hct.trans h2)
          rw [this.1, this.2, hocc, hrev]
          exact ⟨rfl, rfl⟩
        · intro q c h1 h2
          simp only [runEntity]
          have := (runEntity_ledger n hn rest (stepEntity L m r).2).2 q c
            (hrv.trans h1) (hct.trans h2)
          rw [this.1, this.2, hocc, hrev]
          exact ⟨rfl, rfl⟩

/-- The score the loop computes for a row depends only on the occurrences
of the row's entity strictly before the row. -/
theorem runEntity_score (l₁ : List (String × ℚ)) (n : String) (r : ℚ) (l₂ : List (String × ℚ)) :
    ((runEntity Ledger.empty (l₁ ++ (n, r) :: l₂)).1)[l₁.length]? =
      some (if n = "Unknown" ∨ occCount n l₁ = 0 then 0
            else revSum n l₁ / (occCount n l₁ : ℚ)) := by
  rw [runEntity_append]
  have hlen : (runEntity Ledger.empty l₁).1.length = l₁.length := runEntity_fst_length l₁ _
  rw [show l₁.length = (runEntity Ledger.empty l₁).1.length from hlen.symm,
    List.getElem?_append_right (le_refl _), Nat.sub_self]
  simp only [runEntity]
  rw [List.getElem?_cons_zero]
  by_cases hn : n = "Unknown"
  · have : stepEntity (runEntity Ledger.empty l₁).2 n r =
        (0, (runEntity Ledger.empty l₁).2) := by
      simp [stepEntity, hn]
    rw [this, if_pos (Or.inl hn)]
  · by_cases hc : occCount n l₁ = 0
    · have hrev : (runEntity Ledger.empty l₁).2.rev n = none := by
        have := ((runEntity_ledger n hn l₁ Ledger.empty).1 rfl rfl).1
        rw [this, if_pos hc]
      have : stepEntity (runEntity Ledger.empty l₁).2 n r
          = (0, ((stepEntity (runEntity Ledger.empty l₁).2 n r).2)) := by
        simp [stepEntity, hrev]
      rw [this, if_pos (Or.inr hc)]
    · have hrev : (runEntity Ledger.empty l₁).2.rev n = some (revSum n l₁) := by
        have := ((runEntity_ledger n hn l₁ Ledger.empty).1 rfl rfl).1
        rw [this, if_neg hc]
      have hcnt : (runEntity Ledger.empty l₁).2.count n = some (occCount n l₁) := by
        have := ((runEntity_ledger n hn l₁ Ledger.empty).1 rfl rfl).2
        rw [this, if_neg hc]
      have : stepEntity (runEntity Ledger.empty l₁).2 n r
          = (revSum n l₁ / (occCount n l₁ : ℚ),
              (stepEntity (runEntity Ledger.empty l₁).2 n r).2) := by
        simp [stepEntity, hrev, hn, hcnt]
      rw [this, if_neg (by simp [hn, hc])]

/-!
## C8: division safety
-/


theorem ledgerInv_empty : LedgerInv Ledger.empty := by
  intro n h
  simp [Ledger.empty] at h

theorem ledgerInv_step (L : Ledger) (n : String) (r : ℚ) (h : LedgerInv L) :
    LedgerInv (stepEntity L n r).2 := by
  intro m hm
  by_cases hbr : n ≠ "Unknown" ∧ (L.rev n).isSome
  · simp only [stepEntity, if_pos hbr] at hm ⊢
    by_cases hmn : m = n
    · subst hmn
      exact ⟨(L.count m).getD 0 + 1, by simp [updateMap], by omega⟩
    · simp only [updateMap, if_neg hmn] at hm ⊢
      exact h m hm
  · simp only [stepEntity, if_neg hbr] at hm ⊢
    by_cases hun : n = "Unknown"
    · rw [if_pos hun] at hm ⊢
      exact h m hm
    · rw [if_neg hun] at hm ⊢
      by_cases hmn : m = n
      · subst hmn
        exact ⟨1, by simp [updateMap], by omega⟩
      · simp only [updateMap, if_neg hmn] at hm ⊢
        exact h m hm

theorem divSafe_of_inv : ∀ (l : List (String × ℚ)) (L : Ledger), LedgerInv L → divSafe L l
  | [], _, _ => trivial
  | (n, r) :: rest, L, h =>
      ⟨fun hcond => h n hcond.2, divSafe_of_inv rest _ (ledgerInv_step L n r h)⟩

/-- C8: in the aggregation pass, every evaluation of
`sum / count` happens with a present, strictly positive count: the
unseen and `"Unknown"` cases are routed to the literal-zero branch before
the division is reached, for every input corpus, on both the director and
the actor ledger. -/
theorem C8_division_safe (rows : List Row) :
    divSafe Ledger.empty (dirStream rows) ∧ divSafe Ledger.empty (actorStream rows) :=
  ⟨divSafe_of_inv _ _ ledgerInv_empty, divSafe_of_inv _ _ ledgerInv_empty⟩

/-- C8 witness: the safety predicate holds on the concrete corpus. -/
theorem C8_division_safe_witness :
    divSafe Ledger.empty (dirStream c3Corpus4) ∧ divSafe Ledger.empty (actorStream c3Corpus4) :=
  C8_division_safe c3Corpus4

/-!
## C5: first appearances and the Unknown sentinel
-/

/-- Generic form of C5 for one entity stream: the score of a row whose
entity is `"Unknown"` or occurs for the first time is exactly 0. -/
theorem scores_first_zero (s : List (String × ℚ)) (i : ℕ) (hi : i < s.length)
    (hfirst : (s.get ⟨i, hi⟩).1 = "Unknown" ∨
      ∀ j, ∀ hj : j < i, (s.get ⟨j, Nat.lt_trans hj hi⟩).1 ≠ (s.get ⟨i, hi⟩).1) :
    ((runEntity Ledger.empty s).1)[i]? = some 0 := by
  have hdecomp : s = s.take i ++ s.get ⟨i, hi⟩ :: s.drop (i + 1) := by
    conv_lhs => rw [← List.take_append_drop i s]
    rw [List.drop_eq_getElem_cons hi]
    rfl
  have htake : (s.take i).length = i := by
    simp [List.length_take]
    omega
  conv_lhs => rw [hdecomp]
  have hs := runEntity_score (s.take i) (s.get ⟨i, hi⟩).1 (s.get ⟨i, hi⟩).2 (s.drop (i + 1))
  rw [htake, show ((s.get ⟨i, hi⟩).1, (s.get ⟨i, hi⟩).2) = s.get ⟨i, hi⟩ from rfl] at hs
  rw [hs]
  congr 1
  rcases hfirst with h | h
  · rw [if_pos (Or.inl h)]
  · rw [if_pos (Or.inr ?_)]
    simp only [occCount, occs, List.length_eq_zero]
    rw [List.filter_eq_nil_iff]
    intro a ha
    obtain ⟨⟨j, hj⟩, hget⟩ := List.mem_iff_get.mp ha
    have hj' : j < i := by
      simpa [htake] using hj
    have : (s.take i).get ⟨j, hj⟩ = s.get ⟨j, Nat.lt_trans hj' hi⟩ := by
      simp [List.get_eq_getElem, List.getElem_take]
    rw [this] at hget
    rw [← hget]
    simpa using h j hj'

/-- C5: every entity's chronologically first processed movie scores
exactly 0; every movie whose director (resp. lead actor) is the sentinel
`"Unknown"` scores 0; and `"Unknown"` is never accumulated into either
accumulator dict pair. -/
theorem C5_first_appearance_zero (rows : List Row) :
    (∀ i, ∀ hi : i < rows.length,
      ((rows.get ⟨i, hi⟩).director = "Unknown" ∨
        ∀ j, ∀ hj : j < i, (rows.get ⟨j, Nat.lt_trans hj hi⟩).director ≠ (rows.get ⟨i, hi⟩).director) →
        (dir_scores rows)[i]? = some 0) ∧
    (∀ i, ∀ hi : i < rows.length,
      ((rows.get ⟨i, hi⟩).top_actor = "Unknown" ∨
        ∀ j, ∀ hj : j < i, (rows.get ⟨j, Nat.lt_trans hj hi⟩).top_actor ≠ (rows.get ⟨i, hi⟩).top_actor) →
        (actor_scores rows)[i]? = some 0) ∧
    (finalDirLedger rows).rev "Unknown" = none ∧
    (finalDirLedger rows).count "Unknown" = none ∧
    (finalActorLedger rows).rev "Unknown" = none ∧
    (finalActorLedger rows).count "Unknown" = none := by
  refine ⟨?_, ?_, ?_, ?_, ?_, ?_⟩
  · intro i hi h
    have hi' : i < (dirStream rows).length := by simpa [dirStream] using hi
    apply scores_first_zero (dirStream rows) i hi'
    rcases h with h | h
    · exact Or.inl (by simpa [dirStream, List.get_eq_getElem] using h)
    · refine Or.inr fun j hj => ?_
      have := h j hj
      simpa [dirStream, List.get_eq_getElem] using this
  · intro i hi h
    have hi' : i < (actorStream rows).length := by simpa [actorStream] using hi
    apply scores_first_zero (actorStream rows) i hi'
    rcases h with h | h
    · exact Or.inl (by simpa [actorStream, List.get_eq_getElem] using h)
    · refine Or.inr fun j hj => ?_
      have := h j hj
      simpa [actorStream, List.get_eq_getElem] using this
  · exact (runEntity_unknown (dirStream rows) Ledger.empty).1
  · exact (runEntity_unknown (dirStream rows) Ledger.empty).2
  · exact (runEntity_unknown (actorStream rows) Ledger.empty).1
  · exact (runEntity_unknown (actorStream rows) Ledger.empty).2

/-- C5 witness: on the concrete corpus, the first movie of director "A"
and the movie of the fresh director "B" both score 0. -/
theorem C5_first_appearance_zero_witness :
    (dir_scores c3Corpus4)[0]? = some 0 ∧ (dir_scores c3Corpus4)[3]? = some 0 ∧
    (finalDirLedger c3Corpus4).rev "Unknown" = none :=
  ⟨(C5_first_appearance_zero c3Corpus4).1 0 (by norm_num [c3Corpus4, c3Corpus])
      (Or.inr fun j hj => absurd hj (Nat.not_lt_zero j)),
    (C5_first_appearance_zero c3Corpus4).1 3 (by norm_num [c3Corpus4, c3Corpus])
      (Or.inr (by decide)),
    (C5_first_appearance_zero c3Corpus4).2.2.1⟩

/-!
## C2: no-leakage
-/

theorem take_eraseIdx_of_le {α : Type} : ∀ (l : List α) (j i : ℕ), i ≤ j →
    (l.eraseIdx j).take i = l.take i
  | [], _, _, _ => by simp
  | _ :: _, _, 0, _ => by simp
  | _ :: _, 0, i + 1, h => absurd h (Nat.not_succ_le_zero i)
  | x :: xs, j + 1, i + 1, h => by
      simp only [List.eraseIdx_cons_succ, List.take_succ_cons]
      rw [take_eraseIdx_of_le xs j i (Nat.le_of_succ_le_succ h)]

theorem map_eraseIdx {α β : Type} (f : α → β) : ∀ (l : List α) (j : ℕ),
    (l.eraseIdx j).map f = (l.map f).eraseIdx j
  | [], _ => by simp
  | x :: xs, 0 => by simp
  | x :: xs, j + 1 => by
      simp only [List.eraseIdx_cons_succ, List.map_cons]
      rw [map_eraseIdx f xs j]

/-- A score only depends on the stream up to and including its own row. -/
theorem scores_take (L : Ledger) (l : List (String × ℚ)) (i : ℕ) :
    ((runEntity L l).1)[i]? = ((runEntity L (l.take (i + 1))).1)[i]? := by
  by_cases h : i < (l.take (i + 1)).length
  · conv_lhs => rw [← List.take_append_drop (i + 1) l]
    rw [runEntity_append]
    rw [List.getElem?_append_left (by rw [runEntity_fst_length]; exact h)]
  · have hll : l.length ≤ i := by
      simp [List.length_take] at h
      omega
    rw [List.take_of_length_le (by omega)]

/-- Deleting a stream element strictly after position `i` leaves the
score at position `i` unchanged. -/
theorem scores_eraseIdx (l : List (String × ℚ)) (i j : ℕ) (hij : i < j) :
    ((runEntity Ledger.empty (l.eraseIdx j)).1)[i]? = ((runEntity Ledger.empty l).1)[i]? := by
  rw [scores_take Ledger.empty (l.eraseIdx j) i, scores_take Ledger.empty l i,
    take_eraseIdx_of_le l j (i + 1) (by omega)]

/-- Changing the revenue of an earlier occurrence of an entity changes the
score of a later occurrence. -/
theorem scores_rev_sensitive (p₁ p₂ l₂ : List (String × ℚ)) (n : String) (hn : n ≠ "Unknown")
    (r₁ r₁' r₂ : ℚ) (hr : r₁ ≠ r₁') (i : ℕ) (hi : i = p₁.length + 1 + p₂.length) :
    ((runEntity Ledger.empty ((p₁ ++ (n, r₁) :: p₂) ++ (n, r₂) :: l₂)).1)[i]? ≠
    ((runEntity Ledger.empty ((p₁ ++ (n, r₁') :: p₂) ++ (n, r₂) :: l₂)).1)[i]? := by
  have e₁ : i = (p₁ ++ (n, r₁) :: p₂).length := by simp [hi]; omega
  have e₂ : i = (p₁ ++ (n, r₁') :: p₂).length := by simp [hi]; omega
  conv_lhs => rw [e₁]
  conv_rhs => rw [e₂]
  rw [runEntity_score, runEntity_score]
  have hC0 : occCount n (p₁ ++ (n, r₁) :: p₂) ≠ 0 := by
    simp [occCount, occs_append, occs_cons_self]
  have hCeq : occCount n (p₁ ++ (n, r₁') :: p₂) = occCount n (p₁ ++ (n, r₁) :: p₂) := by
    simp [occCount, occs_append, occs_cons_self]
  rw [if_neg (not_or.mpr ⟨hn, hC0⟩), if_neg (not_or.mpr ⟨hn, by rw [hCeq]; exact hC0⟩)]
  intro heq
  rw [Option.some.injEq, hCeq] at heq
  have hcast : ((occCount n (p₁ ++ (n, r₁) :: p₂) : ℕ) : ℚ) ≠ 0 := Nat.cast_ne_zero.mpr hC0
  have hnum := congrArg (· * ((occCount n (p₁ ++ (n, r₁) :: p₂) : ℕ) : ℚ)) heq
  simp only [div_mul_cancel₀ _ hcast] at hnum
  have h1 : revSum n (p₁ ++ (n, r₁) :: p₂) = revSum n p₁ + (r₁ + revSum n p₂) := by
    simp [revSum, occs_append, occs_cons_self]
  have h2 : revSum n (p₁ ++ (n, r₁') :: p₂) = revSum n p₁ + (r₁' + revSum n p₂) := by
    simp [revSum, occs_append, occs_cons_self]
  rw [h1, h2] at hnum
  exact hr (by linarith)

/-- C2 (amended): (1) a movie's director/actor score is unchanged when any
movie at a strictly later position of the date-sorted processing order is
deleted; (2) under date-sortedness, any movie released strictly after
another is at a strictly later position, so deleting a strictly
later-released movie is covered by (1); (3)–(4) the score of a later movie
by the same (non-`"Unknown"`) director resp. lead actor changes whenever
the earlier movie's revenue changes. -/
theorem C2_no_leakage :
    (∀ (rows : List Row) (i j : ℕ), i < j →
        (dir_scores (rows.eraseIdx j))[i]? = (dir_scores rows)[i]? ∧
        (actor_scores (rows.eraseIdx j))[i]? = (actor_scores rows)[i]?) ∧
    (∀ rows : List Row, (rows.map Row.release_date).Sorted (· ≤ ·) →
        ∀ (i j : ℕ) (hi : i < rows.length) (hj : j < rows.length),
          (rows.get ⟨i, hi⟩).release_date < (rows.get ⟨j, hj⟩).release_date → i < j) ∧
    (∀ (pre mid post : List Row) (m₁ m₂ : Row) (r' : ℚ),
        m₁.director = m₂.director → m₂.director ≠ "Unknown" → r' ≠ m₁.revenue_adj →
        (dir_scores (pre ++ m₁ :: mid ++ m₂ :: post))[(pre ++ m₁ :: mid).length]? ≠
          (dir_scores (pre ++ { m₁ with revenue_adj := r' } :: mid ++ m₂ :: post))[(pre ++ m₁ :: mid).length]?) ∧
    (∀ (pre mid post : List Row) (m₁ m₂ : Row) (r' : ℚ),
        m₁.top_actor = m₂.top_actor → m₂.top_actor ≠ "Unknown" → r' ≠ m₁.revenue_adj →
        (actor_scores (pre ++ m₁ :: mid ++ m₂ :: post))[(pre ++ m₁ :: mid).length]? ≠
          (actor_scores (pre ++ { m₁ with revenue_adj := r' } :: mid ++ m₂ :: post))[(pre ++ m₁ :: mid).length]?) := by
  refine ⟨?_, ?_, ?_, ?_⟩
  · intro rows i j hij
    constructor
    · rw [dir_scores, dir_scores, dirStream, map_eraseIdx]
      exact scores_eraseIdx _ i j hij
    · rw [actor_scores, actor_scores, actorStream, map_eraseIdx]
      exact scores_eraseIdx _ i j hij
  · intro rows hs i j hi hj hd
    by_contra hle
    push_neg at hle
    have hi' : i < (rows.map Row.release_date).length := by simpa using hi
    have hj' : j < (rows.map Row.release_date).length := by simpa using hj
    have hfin : (⟨j, hj'⟩ : Fin (rows.map Row.release_date).length) ≤ ⟨i, hi'⟩ :=
      Fin.mk_le_mk.mpr hle
    have hmono := List.Sorted.rel_get_of_le hs hfin
    simp only [List.get_eq_getElem, List.getElem_map] at hmono
    simp only [List.get_eq_getElem] at hd
    omega
  · intro pre mid post m₁ m₂ r' hm hn hr
    have hstream : dirStream (pre ++ m₁ :: mid ++ m₂ :: post)
        = (dirStream pre ++ (m₂.director, m₁.revenue_adj) :: dirStream mid)
            ++ (m₂.director, m₂.revenue_adj) :: dirStream post := by
      simp [dirStream, hm]
    have hstream' : dirStream (pre ++ { m₁ with revenue_adj := r' } :: mid ++ m₂ :: post)
        = (dirStream pre ++ (m₂.director, r') :: dirStream mid)
            ++ (m₂.director, m₂.revenue_adj) :: dirStream post := by
      simp [dirStream, hm]
    rw [dir_scores, dir_scores, hstream, hstream']
    exact scores_rev_sensitive (dirStream pre) (dirStream mid) (dirStream post) m₂.director hn
      m₁.revenue_adj r' m₂.revenue_adj (fun h => hr h.symm) _ (by simp [dirStream]; omega)
  · intro pre mid post m₁ m₂ r' hm hn hr
    have hstream : actorStream (pre ++ m₁ :: mid ++ m₂ :: post)
        = (actorStream pre ++ (m₂.top_actor, m₁.revenue_adj) :: actorStream mid)
            ++ (m₂.top_actor, m₂.revenue_adj) :: actorStream post := by
      simp [actorStream, hm]
    have hstream' : actorStream (pre ++ { m₁ with revenue_adj := r' } :: mid ++ m₂ :: post)
        = (actorStream pre ++ (m₂.top_actor, r') :: actorStream mid)
            ++ (m₂.top_actor, m₂.revenue_adj) :: actorStream post := by
      simp [actorStream, hm]
    rw [actor_scores, actor_scores, hstream, hstream']
    exact scores_rev_sensitive (actorStream pre) (actorStream mid) (actorStream post) m₂.top_actor hn
      m₁.revenue_adj r' m₂.revenue_adj (fun h => hr h.symm) _ (by simp [actorStream]; omega)


/-- C2 counterexample: deleting `c2M3` — a movie released *on* M2's date —
changes M2's director score from (100+200)/2 = 150 to 100/1 = 100, so the
claim's "unchanged if any movie released on or after M2's date is deleted"
is false on the code: same-day movies positioned earlier in the sorted
order do feed the later movie's score. -/
theorem C2_same_date_deletion_counterexample :
    c2M1.release_date < c2M2.release_date ∧
    c2M1.director = "A" ∧ c2M2.director = "A" ∧
    c2M2.release_date ≤ c2M3.release_date ∧
    (c2Corpus.map Row.release_date).Sorted (· ≤ ·) ∧
    c2Corpus.eraseIdx 1 = [c2M1, c2M2] ∧
    (dir_scores c2Corpus)[2]? = some 150 ∧
    (dir_scores (c2Corpus.eraseIdx 1))[1]? = some 100 := by
  refine ⟨by decide, rfl, rfl, by decide, by decide, by decide, ?_, ?_⟩
  · simp +decide [dir_scores, dirStream, c2Corpus, c2M1, c2M2, c2M3,
      runEntity, stepEntity, Ledger.empty, updateMap]
    norm_num
  · simp +decide [dir_scores, dirStream, c2Corpus, c2M1, c2M2, c2M3,
      runEntity, stepEntity, Ledger.empty, updateMap]

/-- C2 witness: the amended theorem applied to concrete corpora — deleting
a later-positioned movie preserves an earlier score, sortedness turns a
strictly later release date into a strictly later position, and bumping
M1's revenue changes M2's score. -/
theorem C2_no_leakage_witness :
    ((dir_scores ([c2M1, c2M2].eraseIdx 1))[0]? = (dir_scores [c2M1, c2M2])[0]? ∧
      (actor_scores ([c2M1, c2M2].eraseIdx 1))[0]? = (actor_scores [c2M1, c2M2])[0]?) ∧
    (0 : ℕ) < 1 ∧
    (dir_scores (([] : List Row) ++ c2M1 :: ([] : List Row) ++ c2M2 :: ([] : List Row)))[
        (([] : List Row) ++ c2M1 :: ([] : List Row)).length]? ≠
      (dir_scores (([] : List Row) ++ { c2M1 with revenue_adj := 7 } :: ([] : List Row)
          ++ c2M2 :: ([] : List Row)))[(([] : List Row) ++ c2M1 :: ([] : List Row)).length]? := by
  refine ⟨C2_no_leakage.1 [c2M1, c2M2] 0 1 (by omega), ?_, ?_⟩
  · exact C2_no_leakage.2.1 [c2M1, c2M2] (by decide) 0 1 (by decide) (by decide) (by decide)
  · exact C2_no_leakage.2.2.1 [] [] [] c2M1 c2M2 7 rfl (by decide) (by decide)

/-!
## Dictionary lemmas for the vector builder
-/


theorem dictKeys_dictSet_mem : ∀ (m : List (String × ℚ)) (k : String) (v : ℚ),
    k ∈ dictKeys m → dictKeys (dictSet m k v) = dictKeys m
  | [], k, v, h => by simp [dictKeys] at h
  | (k', v') :: m, k, v, h => by
      by_cases hk : k' = k
      · simp [dictSet, hk, dictKeys]
      · have hcons : dictKeys ((k', v') :: m) = k' :: dictKeys m := by simp [dictKeys]
        have hmem : k ∈ dictKeys m := by
          rw [hcons] at h
          rcases List.mem_cons.mp h with h1 | h1
          · exact absurd h1.symm hk
          · exact h1
        rw [show dictSet ((k', v') :: m) k v = (k', v') :: dictSet m k v by simp [dictSet, hk],
          hcons, show dictKeys ((k', v') :: dictSet m k v) = k' :: dictKeys (dictSet m k v) by
            simp [dictKeys]]
        rw [dictKeys_dictSet_mem m k v hmem]

theorem dictKeys_dictSet_not_mem : ∀ (m : List (String × ℚ)) (k : String) (v : ℚ),
    k ∉ dictKeys m → dictKeys (dictSet m k v) = dictKeys m ++ [k]
  | [], k, v, _ => by simp [dictSet, dictKeys]
  | (k', v') :: m, k, v, h => by
      have hk : k' ≠ k := by
        intro hk
        exact h (by simp [dictKeys, hk])
      have hm : k ∉ dictKeys m := fun hm => h (by simp [dictKeys]; exact Or.inr (by simpa [dictKeys] using hm))
      simp only [dictSet, if_neg hk, dictKeys, List.map_cons, List.cons_append]
      congr 1
      exact dictKeys_dictSet_not_mem m k v hm

theorem dictKeys_dictSet_subset (m : List (String × ℚ)) (k : String) (v : ℚ) :
    ∀ x ∈ dictKeys (dictSet m k v), x ∈ dictKeys m ∨ x = k := by
  by_cases h : k ∈ dictKeys m
  · rw [dictKeys_dictSet_mem m k v h]
    exact fun x hx => Or.inl hx
  · rw [dictKeys_dictSet_not_mem m k v h]
    intro x hx
    rcases List.mem_append.mp hx with h1 | h1
    · exact Or.inl h1
    · exact Or.inr (by simpa using h1)

theorem dictMem_iff (m : List (String × ℚ)) (k : String) :
    dictMem m k = true ↔ k ∈ dictKeys m := by
  simp [dictMem, dictKeys, List.any_eq_true, List.mem_map]

theorem dictLookup_cons_ne (k₀ : String) (v₀ : ℚ) (m : List (String × ℚ)) (k : String)
    (h : k₀ ≠ k) : dictLookup ((k₀, v₀) :: m) k = dictLookup m k := by
  simp only [dictLookup]
  rw [List.find?_cons_of_neg _ (by simpa using h)]

theorem dictLookup_cons_self (k₀ : String) (v₀ : ℚ) (m : List (String × ℚ)) :
    dictLookup ((k₀, v₀) :: m) k₀ = some v₀ := by
  simp only [dictLookup]
  rw [List.find?_cons_of_pos _ (by simp)]
  rfl

theorem dictLookup_dictSet_self : ∀ (m : List (String × ℚ)) (k : String) (v : ℚ),
    dictLookup (dictSet m k v) k = some v
  | [], k, v => by
      rw [show dictSet [] k v = [(k, v)] from rfl]
      exact dictLookup_cons_self k v []
  | (k', v') :: m, k, v => by
      by_cases hk : k' = k
      · rw [show dictSet ((k', v') :: m) k v = (k, v) :: m by simp [dictSet, hk]]
        exact dictLookup_cons_self k v m
      · rw [show dictSet ((k', v') :: m) k v = (k', v') :: dictSet m k v by simp [dictSet, hk],
          dictLookup_cons_ne k' v' _ k hk]
        exact dictLookup_dictSet_self m k v

theorem dictLookup_dictSet_ne : ∀ (m : List (String × ℚ)) (k k' : String) (v : ℚ),
    k' ≠ k → dictLookup (dictSet m k v) k' = dictLookup m k'
  | [], k, k', v, h => by
      rw [show dictSet [] k v = [(k, v)] from rfl,
        dictLookup_cons_ne k v [] k' (fun e => h e.symm)]
  | (k₀, v₀) :: m, k, k', v, h => by
      by_cases hk : k₀ = k
      · subst hk
        rw [show dictSet ((k₀, v₀) :: m) k₀ v = (k₀, v) :: m by simp [dictSet],
          dictLookup_cons_ne k₀ v m k' (fun e => h e.symm),
          dictLookup_cons_ne k₀ v₀ m k' (fun e => h e.symm)]
      · by_cases hk' : k₀ = k'
        · subst hk'
          rw [show dictSet ((k₀, v₀) :: m) k v = (k₀, v₀) :: dictSet m k v by simp [dictSet, hk],
            dictLookup_cons_self, dictLookup_cons_self]
        · rw [show dictSet ((k₀, v₀) :: m) k v = (k₀, v₀) :: dictSet m k v by simp [dictSet, hk],
            dictLookup_cons_ne k₀ v₀ _ k' hk', dictLookup_cons_ne k₀ v₀ m k' hk']
          exact dictLookup_dictSet_ne m k k' v h

theorem dictLookup_mem (m : List (String × ℚ)) (k : String) (v : ℚ)
    (h : dictLookup m k = some v) : ∃ p ∈ m, p.2 = v := by
  simp only [dictLookup, Option.map_eq_some'] at h
  obtain ⟨p, hp, hv⟩ := h
  exact ⟨p, List.mem_of_find?_eq_some hp, hv⟩

theorem initDict_keys_aux : ∀ (schema : List String) (m : List (String × ℚ)),
    (∀ c ∈ schema, c ∉ dictKeys m) → schema.Nodup →
    dictKeys (schema.foldl (fun m col => dictSet m col 0) m) = dictKeys m ++ schema
  | [], m, _, _ => by simp
  | c :: schema, m, hfresh, hnd => by
      simp only [List.foldl_cons]
      rw [initDict_keys_aux schema (dictSet m c 0) ?_ (List.Nodup.of_cons hnd)]
      · rw [dictKeys_dictSet_not_mem m c 0 (hfresh c (by simp))]
        simp
      · intro x hx hmem
        rcases dictKeys_dictSet_subset m c 0 x hmem with h1 | h1
        · exact hfresh x (by simp [hx]) h1
        · subst h1
          exact (List.nodup_cons.mp hnd).1 hx

/-- Under a duplicate-free schema, the zero-initialization produces
exactly the schema's keys, in order. -/
theorem initDict_keys (schema : List String) (hnd : schema.Nodup) :
    dictKeys (initDict schema) = schema := by
  have := initDict_keys_aux schema [] (by simp [dictKeys]) hnd
  simpa [initDict, dictKeys] using this

theorem initDict_keys_subset : ∀ (schema : List String) (m : List (String × ℚ)),
    ∀ x ∈ dictKeys (schema.foldl (fun m col => dictSet m col 0) m), x ∈ dictKeys m ∨ x ∈ schema
  | [], m, x, hx => Or.inl hx
  | c :: schema, m, x, hx => by
      simp only [List.foldl_cons] at hx
      rcases initDict_keys_subset schema (dictSet m c 0) x hx with h1 | h1
      · rcases dictKeys_dictSet_subset m c 0 x h1 with h2 | h2
        · exact Or.inl h2
        · exact Or.inr (by simp [h2])
      · exact Or.inr (by simp [h1])

theorem initDict_values_zero : ∀ (schema : List String) (m : List (String × ℚ)),
    (∀ p ∈ m, p.2 = 0) → ∀ p ∈ schema.foldl (fun m col => dictSet m col 0) m, p.2 = (0 : ℚ)
  | [], m, hm, p, hp => hm p hp
  | c :: schema, m, hm, p, hp => by
      simp only [List.foldl_cons] at hp
      refine initDict_values_zero schema (dictSet m c 0) ?_ p hp
      intro q hq
      clear hp
      induction m with
      | nil =>
          rw [show dictSet [] c 0 = [(c, 0)] from rfl] at hq
          obtain rfl := List.mem_singleton.mp hq
          rfl
      | cons a m ih =>
          by_cases hc : a.1 = c
          · rw [show dictSet (a :: m) c 0 = (c, 0) :: m by simp [dictSet, hc]] at hq
            rcases List.mem_cons.mp hq with h1 | h1
            · simp [h1]
            · exact hm q (List.mem_cons_of_mem a h1)
          · rw [show dictSet (a :: m) c 0 = a :: dictSet m c 0 by simp [dictSet, hc]] at hq
            rcases List.mem_cons.mp hq with h1 | h1
            · exact h1 ▸ hm a (List.mem_cons_self a m)
            · exact ih (fun p hp => hm p (List.mem_cons_of_mem a hp)) h1

/-!
## Column-name disequalities

The five numeric column names, the `season_`-prefixed names and the
`genre_`-prefixed names are pairwise disjoint families.
-/

theorem season_col_ne_numeric (s : String) :
    "season_" ++ s ≠ "budget_adj" ∧ "season_" ++ s ≠ "runtime" ∧
    "season_" ++ s ≠ "is_franchise" ∧ "season_" ++ s ≠ "director_score" ∧
    "season_" ++ s ≠ "actor_score" := by
  refine ⟨?_, ?_, ?_, ?_, ?_⟩ <;>
    (intro h
     have h2 := congrArg String.data h
     rw [String.data_append] at h2
     simp at h2)

theorem genre_col_ne_numeric (g : String) :
    "genre_" ++ g ≠ "budget_adj" ∧ "genre_" ++ g ≠ "runtime" ∧
    "genre_" ++ g ≠ "is_franchise" ∧ "genre_" ++ g ≠ "director_score" ∧
    "genre_" ++ g ≠ "actor_score" := by
  refine ⟨?_, ?_, ?_, ?_, ?_⟩ <;>
    (intro h
     have h2 := congrArg String.data h
     rw [String.data_append] at h2
     simp at h2)

theorem genre_col_ne_season_col (g s : String) : "genre_" ++ g ≠ "season_" ++ s := by
  intro h
  have h2 := congrArg String.data h
  rw [String.data_append, String.data_append] at h2
  simp at h2

/-!
## Builder lemmas
-/

theorem dictKeys_setIndicator (m : List (String × ℚ)) (col : String) :
    dictKeys (setIndicator m col) = dictKeys m := by
  unfold setIndicator
  split_ifs with h
  · exact dictKeys_dictSet_mem m col 1 ((dictMem_iff m col).mp h)
  · rfl

theorem setIndicator_lookup_ne (m : List (String × ℚ)) (col k : String) (h : k ≠ col) :
    dictLookup (setIndicator m col) k = dictLookup m k := by
  unfold setIndicator
  split_ifs with hm
  · exact dictLookup_dictSet_ne m col k 1 h
  · rfl

theorem setIndicator_not_mem (m : List (String × ℚ)) (col : String)
    (h : col ∉ dictKeys m) : setIndicator m col = m := by
  unfold setIndicator
  rw [if_neg (fun hm => h ((dictMem_iff m col).mp hm))]

theorem dictKeys_dictSet_of_eq (m : List (String × ℚ)) (k : String) (v : ℚ)
    (schema : List String) (hm : dictKeys m = schema) (hk : k ∈ schema) :
    dictKeys (dictSet m k v) = schema := by
  rw [dictKeys_dictSet_mem m k v (by rw [hm]; exact hk), hm]

theorem dictKeys_numericDict (schema : List String) (inp : LiveInput) (hnd : schema.Nodup)
    (h1 : "budget_adj" ∈ schema) (h2 : "runtime" ∈ schema) (h3 : "is_franchise" ∈ schema)
    (h4 : "director_score" ∈ schema) (h5 : "actor_score" ∈ schema) :
    dictKeys (numericDict schema inp) = schema := by
  unfold numericDict
  exact dictKeys_dictSet_of_eq _ _ _ _
    (dictKeys_dictSet_of_eq _ _ _ _
      (dictKeys_dictSet_of_eq _ _ _ _
        (dictKeys_dictSet_of_eq _ _ _ _
          (dictKeys_dictSet_of_eq _ _ _ _ (initDict_keys schema hnd) h1)
          h2)
        h3)
      h4)
    h5

theorem build_keys (schema : List String) (inp : LiveInput) (hnd : schema.Nodup)
    (h1 : "budget_adj" ∈ schema) (h2 : "runtime" ∈ schema) (h3 : "is_franchise" ∈ schema)
    (h4 : "director_score" ∈ schema) (h5 : "actor_score" ∈ schema) :
    dictKeys (build schema inp) = schema := by
  unfold build
  rw [dictKeys_setIndicator, dictKeys_setIndicator]
  exact dictKeys_numericDict schema inp hnd h1 h2 h3 h4 h5

theorem numericDict_keys_subset (schema : List String) (inp : LiveInput) :
    ∀ x ∈ dictKeys (numericDict schema inp),
      x ∈ schema ∨ x = "budget_adj" ∨ x = "runtime" ∨ x = "is_franchise" ∨
        x = "director_score" ∨ x = "actor_score" := by
  intro x hx
  unfold numericDict at hx
  rcases dictKeys_dictSet_subset _ _ _ x hx with hx | hx
  · rcases dictKeys_dictSet_subset _ _ _ x hx with hx | hx
    · rcases dictKeys_dictSet_subset _ _ _ x hx with hx | hx
      · rcases dictKeys_dictSet_subset _ _ _ x hx with hx | hx
        · rcases dictKeys_dictSet_subset _ _ _ x hx with hx | hx
          · rcases initDict_keys_subset schema [] x (by simpa [initDict] using hx) with hx | hx
            · simp [dictKeys] at hx
            · exact Or.inl hx
          · tauto
        · tauto
      · tauto
    · tauto
  · tauto

theorem numericDict_lookup_budget (schema : List String) (inp : LiveInput) :
    dictLookup (numericDict schema inp) "budget_adj" = some (inp.budget * 1000000) := by
  unfold numericDict
  rw [dictLookup_dictSet_ne _ _ _ _ (by decide), dictLookup_dictSet_ne _ _ _ _ (by decide),
    dictLookup_dictSet_ne _ _ _ _ (by decide), dictLookup_dictSet_ne _ _ _ _ (by decide),
    dictLookup_dictSet_self]

theorem numericDict_lookup_runtime (schema : List String) (inp : LiveInput) :
    dictLookup (numericDict schema inp) "runtime" = some inp.runtime := by
  unfold numericDict
  rw [dictLookup_dictSet_ne _ _ _ _ (by decide), dictLookup_dictSet_ne _ _ _ _ (by decide),
    dictLookup_dictSet_ne _ _ _ _ (by decide), dictLookup_dictSet_self]

theorem numericDict_lookup_franchise (schema : List String) (inp : LiveInput) :
    dictLookup (numericDict schema inp) "is_franchise" = some (if inp.is_franchise then 1 else 0) := by
  unfold numericDict
  rw [dictLookup_dictSet_ne _ _ _ _ (by decide), dictLookup_dictSet_ne _ _ _ _ (by decide),
    dictLookup_dictSet_self]

theorem numericDict_lookup_director (schema : List String) (inp : LiveInput) :
    dictLookup (numericDict schema inp) "director_score" = some inp.director_score := by
  unfold numericDict
  rw [dictLookup_dictSet_ne _ _ _ _ (by decide), dictLookup_dictSet_self]

theorem numericDict_lookup_actor (schema : List String) (inp : LiveInput) :
    dictLookup (numericDict schema inp) "actor_score" = some inp.actor_score := by
  unfold numericDict
  rw [dictLookup_dictSet_self]

theorem build_lookup_numeric (schema : List String) (inp : LiveInput) (k : String)
    (hks : k ≠ "season_" ++ inp.season) (hkg : k ≠ "genre_" ++ inp.primary_genre) :
    dictLookup (build schema inp) k = dictLookup (numericDict schema inp) k := by
  unfold build
  rw [setIndicator_lookup_ne _ _ _ hkg, setIndicator_lookup_ne _ _ _ hks]

theorem initDict_lookup_zero (schema : List String) (k : String) :
    (dictLookup (initDict schema) k).getD 0 = 0 := by
  cases hl : dictLookup (initDict schema) k with
  | none => rfl
  | some v =>
      obtain ⟨p, hp, hv⟩ := dictLookup_mem _ _ _ hl
      have hz := initDict_values_zero schema [] (by simp) p (by simpa [initDict] using hp)
      simp [← hv, hz]

/-- C4 (amended): for every duplicate-free schema that contains the five
numeric field names, the builder's output aligns with the schema: the
column sequence equals the schema (hence the length matches and no entry
absent from the schema is introduced), and each numeric field overwrites
exactly its schema entry with the supplied value. -/
theorem C4_schema_alignment (schema : List String) (inp : LiveInput) (hnd : schema.Nodup)
    (h1 : "budget_adj" ∈ schema) (h2 : "runtime" ∈ schema) (h3 : "is_franchise" ∈ schema)
    (h4 : "director_score" ∈ schema) (h5 : "actor_score" ∈ schema) :
    buildCols schema inp = schema ∧
    (buildVector schema inp).length = schema.length ∧
    dictLookup (build schema inp) "budget_adj" = some (inp.budget * 1000000) ∧
    dictLookup (build schema inp) "runtime" = some inp.runtime ∧
    dictLookup (build schema inp) "is_franchise" = some (if inp.is_franchise then 1 else 0) ∧
    dictLookup (build schema inp) "director_score" = some inp.director_score ∧
    dictLookup (build schema inp) "actor_score" = some inp.actor_score := by
  have hkeys := build_keys schema inp hnd h1 h2 h3 h4 h5
  refine ⟨hkeys, ?_, ?_, ?_, ?_, ?_, ?_⟩
  · have := congrArg List.length hkeys
    simpa [dictKeys, buildVector] using this
  · rw [build_lookup_numeric schema inp _ (fun e => (season_col_ne_numeric inp.season).1 e.symm)
      (fun e => (genre_col_ne_numeric inp.primary_genre).1 e.symm)]
    exact numericDict_lookup_budget schema inp
  · rw [build_lookup_numeric schema inp _ (fun e => (season_col_ne_numeric inp.season).2.1 e.symm)
      (fun e => (genre_col_ne_numeric inp.primary_genre).2.1 e.symm)]
    exact numericDict_lookup_runtime schema inp
  · rw [build_lookup_numeric schema inp _ (fun e => (season_col_ne_numeric inp.season).2.2.1 e.symm)
      (fun e => (genre_col_ne_numeric inp.primary_genre).2.2.1 e.symm)]
    exact numericDict_lookup_franchise schema inp
  · rw [build_lookup_numeric schema inp _
      (fun e => (season_col_ne_numeric inp.season).2.2.2.1 e.symm)
      (fun e => (genre_col_ne_numeric inp.primary_genre).2.2.2.1 e.symm)]
    exact numericDict_lookup_director schema inp
  · rw [build_lookup_numeric schema inp _
      (fun e => (season_col_ne_numeric inp.season).2.2.2.2 e.symm)
      (fun e => (genre_col_ne_numeric inp.primary_genre).2.2.2.2 e.symm)]
    exact numericDict_lookup_actor schema inp

/-- C4 counterexample: for the schema `["runtime", "runtime"]` (which
lacks the other numeric names) the claim fails as stated: the dict
comprehension deduplicates, the five numeric assignments insert keys that
are absent from the schema, the output length is 5 ≠ 2, and the
introduced key `"budget_adj"` is not a schema entry. -/
theorem C4_schema_alignment_counterexample :
    buildCols ["runtime", "runtime"] c1Input ≠ ["runtime", "runtime"] ∧
    (buildVector ["runtime", "runtime"] c1Input).length ≠ 2 ∧
    "budget_adj" ∈ buildCols ["runtime", "runtime"] c1Input ∧
    "budget_adj" ∉ ["runtime", "runtime"] := by
  refine ⟨by decide, by decide, by decide, by decide⟩

/-- C4 witness: the amended theorem applied to the concrete schema of the
§8 scenario. -/
theorem C4_schema_alignment_witness :
    buildCols c1Schema c1Input = c1Schema ∧
    (buildVector c1Schema c1Input).length = c1Schema.length ∧
    dictLookup (build c1Schema c1Input) "budget_adj" = some (c1Input.budget * 1000000) ∧
    dictLookup (build c1Schema c1Input) "runtime" = some c1Input.runtime ∧
    dictLookup (build c1Schema c1Input) "is_franchise"
        = some (if c1Input.is_franchise then 1 else 0) ∧
    dictLookup (build c1Schema c1Input) "director_score" = some c1Input.director_score ∧
    dictLookup (build c1Schema c1Input) "actor_score" = some c1Input.actor_score :=
  C4_schema_alignment c1Schema c1Input (by decide) (by decide) (by decide) (by decide)
    (by decide) (by decide)

/-- C7 (amended): a season or genre label absent from the schema is
absorbed silently — every entry of that indicator family keeps the value
0 (the builder is a total function, so no error is raised), for every
schema and live input; the length of the output equals the schema length
under the same schema hypotheses the counterexample forces for C4 (a
duplicate-free schema containing the five numeric names). -/
theorem C7_unknown_label_graceful (schema : List String) (inp : LiveInput) :
    (("season_" ++ inp.season) ∉ schema →
      ∀ s' : String, (dictLookup (build schema inp) ("season_" ++ s')).getD 0 = 0) ∧
    (("genre_" ++ inp.primary_genre) ∉ schema →
      ∀ g' : String, (dictLookup (build schema inp) ("genre_" ++ g')).getD 0 = 0) ∧
    (schema.Nodup → "budget_adj" ∈ schema → "runtime" ∈ schema → "is_franchise" ∈ schema →
      "director_score" ∈ schema → "actor_score" ∈ schema →
      (buildVector schema inp).length = schema.length) := by
  refine ⟨?_, ?_, ?_⟩
  · intro habs s'
    have hscnot : ("season_" ++ inp.season) ∉ dictKeys (numericDict schema inp) := by
      intro hmem
      rcases numericDict_keys_subset schema inp _ hmem with h | h | h | h | h | h
      · exact habs h
      · exact (season_col_ne_numeric inp.season).1 h
      · exact (season_col_ne_numeric inp.season).2.1 h
      · exact (season_col_ne_numeric inp.season).2.2.1 h
      · exact (season_col_ne_numeric inp.season).2.2.2.1 h
      · exact (season_col_ne_numeric inp.season).2.2.2.2 h
    have hb : build schema inp
        = setIndicator (numericDict schema inp) ("genre_" ++ inp.primary_genre) := by
      unfold build
      rw [setIndicator_not_mem _ _ hscnot]
    rw [hb, setIndicator_lookup_ne _ _ _
      (fun e => genre_col_ne_season_col inp.primary_genre s' e.symm)]
    unfold numericDict
    rw [dictLookup_dictSet_ne _ _ _ _ (season_col_ne_numeric s').2.2.2.2,
      dictLookup_dictSet_ne _ _ _ _ (season_col_ne_numeric s').2.2.2.1,
      dictLookup_dictSet_ne _ _ _ _ (season_col_ne_numeric s').2.2.1,
      dictLookup_dictSet_ne _ _ _ _ (season_col_ne_numeric s').2.1,
      dictLookup_dictSet_ne _ _ _ _ (season_col_ne_numeric s').1]
    exact initDict_lookup_zero schema _
  · intro habs g'
    have hgcnot : ("genre_" ++ inp.primary_genre)
        ∉ dictKeys (setIndicator (numericDict schema inp) ("season_" ++ inp.season)) := by
      rw [dictKeys_setIndicator]
      intro hmem
      rcases numericDict_keys_subset schema inp _ hmem with h | h | h | h | h | h
      · exact habs h
      · exact (genre_col_ne_numeric inp.primary_genre).1 h
      · exact (genre_col_ne_numeric inp.primary_genre).2.1 h
      · exact (genre_col_ne_numeric inp.primary_genre).2.2.1 h
      · exact (genre_col_ne_numeric inp.primary_genre).2.2.2.1 h
      · exact (genre_col_ne_numeric inp.primary_genre).2.2.2.2 h
    have hb : build schema inp
        = setIndicator (numericDict schema inp) ("season_" ++ inp.season) := by
      unfold build
      rw [setIndicator_not_mem _ _ hgcnot]
    rw [hb, setIndicator_lookup_ne _ _ _
      (fun e => genre_col_ne_season_col g' inp.season e)]
    unfold numericDict
    rw [dictLookup_dictSet_ne _ _ _ _ (genre_col_ne_numeric g').2.2.2.2,
      dictLookup_dictSet_ne _ _ _ _ (genre_col_ne_numeric g').2.2.2.1,
      dictLookup_dictSet_ne _ _ _ _ (genre_col_ne_numeric g').2.2.1,
      dictLookup_dictSet_ne _ _ _ _ (genre_col_ne_numeric g').2.1,
      dictLookup_dictSet_ne _ _ _ _ (genre_col_ne_numeric g').1]
    exact initDict_lookup_zero schema _
  · intro hnd h1 h2 h3 h4 h5
    have := congrArg List.length (build_keys schema inp hnd h1 h2 h3 h4 h5)
    simpa [dictKeys, buildVector] using this

/-- C7 counterexample: for the schema `["season_Holiday_Season"]` and the
§8 live input (whose selected labels are absent from that schema), the
output has length 6, not 1: the claim's "vector of the correct length for
every schema" fails because the numeric assignments insert keys missing
from the schema. -/
theorem C7_unknown_label_counterexample :
    ("season_" ++ c1Input.season) ∉ ["season_Holiday_Season"] ∧
    ("genre_" ++ c1Input.primary_genre) ∉ ["season_Holiday_Season"] ∧
    (buildVector ["season_Holiday_Season"] c1Input).length ≠ 1 := by
  refine ⟨by decide, by decide, by decide⟩

/-- C7 witness: the amended theorem at the §8 schema with an unlisted
season and genre selected. -/
theorem C7_unknown_label_graceful_witness :
    (dictLookup (build c1Schema { c1Input with season := "Spring Fall", primary_genre := "Horror" })
        ("season_" ++ "Spring Fall")).getD 0 = 0 ∧
    (dictLookup (build c1Schema { c1Input with season := "Spring Fall", primary_genre := "Horror" })
        ("genre_" ++ "Horror")).getD 0 = 0 ∧
    (buildVector c1Schema { c1Input with season := "Spring Fall", primary_genre := "Horror" }).length
        = c1Schema.length :=
  ⟨(C7_unknown_label_graceful c1Schema _).1 (by decide) "Spring Fall",
    (C7_unknown_label_graceful c1Schema _).2.1 (by decide) "Horror",
    (C7_unknown_label_graceful c1Schema _).2.2 (by decide) (by decide) (by decide) (by decide)
      (by decide) (by decide)⟩
